import Mathlib

/-!
# Verification of the palindrome-checking core

Shallow embedding of `src/strands_multi_agent_example/palindrome_checker.py`.
A Python string is modelled as a `List Char`; Python's per-character
`str.isalnum` / `str.lower` are modelled by Lean's ASCII `Char.isAlphanum` /
`Char.toLower`, which agree with Python on the ASCII character model that the
design notes fix for this core.
-/

namespace PalindromeChecker

/-- The normalization step inlined at line 36 of `palindrome_checker.py`:
`''.join(char.lower() for char in text if char.isalnum())` — filter on the
original character, then lower-case each kept character. -/
def normalize (text : List Char) : List Char :=
  (text.filter Char.isAlphanum).map Char.toLower

/-- `is_palindrome` from `palindrome_checker.py` (lines 12–39): clean the
input, then compare with its reverse (`cleaned == cleaned[::-1]`). -/
def is_palindrome (text : List Char) : Bool :=
  let cleaned := normalize text
  cleaned == cleaned.reverse

/-- `is_palindrome_simple` from `palindrome_checker.py` (lines 42–63):
`text == text[::-1]`, no normalization. -/
def is_palindrome_simple (text : List Char) : Bool :=
  text == text.reverse

/-- The spec's `SymmetryChecker` contract (`is_symmetric`), written from the
spec's words: a sequence is symmetric iff it equals its own reverse. Used to
state the refinement claims. -/
def is_symmetric (seq : List Char) : Bool :=
  seq == seq.reverse

/-! ## Character-level facts about the ASCII classification and case maps -/

theorem char_toNat_ofNat {m : Nat} (h : m < 55296) : (Char.ofNat m).toNat = m := by
  simp [Char.ofNat, Nat.isValidChar, h, Char.ofNatAux, Char.toNat, UInt32.ofNat',
    UInt32.toNat, BitVec.toNat_ofNatLt]

theorem toLower_toNat_of_upper {c : Char} (h1 : 65 ≤ c.toNat) (h2 : c.toNat ≤ 90) :
    (c.toLower).toNat = c.toNat + 32 := by
  have hb : (65 ≤ c.toNat ∧ c.toNat ≤ 90) := ⟨h1, h2⟩
  simp [Char.toLower, hb]
  exact char_toNat_ofNat (by omega)

theorem toLower_eq_of_not_upper {c : Char} (h : ¬ (65 ≤ c.toNat ∧ c.toNat ≤ 90)) :
    c.toLower = c := by
  simp [Char.toLower, h]

theorem isUpper_iff {c : Char} : c.isUpper = true ↔ 65 ≤ c.toNat ∧ c.toNat ≤ 90 := by
  simp [Char.isUpper, Char.toNat, UInt32.le_def, BitVec.le_def, UInt32.toNat]

theorem isLower_iff {c : Char} : c.isLower = true ↔ 97 ≤ c.toNat ∧ c.toNat ≤ 122 := by
  simp [Char.isLower, Char.toNat, UInt32.le_def, BitVec.le_def, UInt32.toNat]

theorem isDigit_iff {c : Char} : c.isDigit = true ↔ 48 ≤ c.toNat ∧ c.toNat ≤ 57 := by
  simp [Char.isDigit, Char.toNat, UInt32.le_def, BitVec.le_def, UInt32.toNat]

theorem isWhitespace_iff {c : Char} :
    c.isWhitespace = true ↔ c.toNat = 32 ∨ c.toNat = 9 ∨ c.toNat = 13 ∨ c.toNat = 10 := by
  simp [Char.isWhitespace, Char.toNat, Char.ext_iff, UInt32.ext_iff, UInt32.size]
  tauto

theorem isAlphanum_iff {c : Char} :
    c.isAlphanum = true ↔
      (65 ≤ c.toNat ∧ c.toNat ≤ 90) ∨ (97 ≤ c.toNat ∧ c.toNat ≤ 122) ∨
        (48 ≤ c.toNat ∧ c.toNat ≤ 57) := by
  simp [Char.isAlphanum, Char.isAlpha, Bool.or_eq_true, isUpper_iff, isLower_iff, isDigit_iff]
  tauto

theorem toLower_isAlphanum {c : Char} (h : c.isAlphanum = true) :
    c.toLower.isAlphanum = true := by
  rcases isAlphanum_iff.mp h with hu | hl | hd
  · have := toLower_toNat_of_upper hu.1 hu.2
    exact isAlphanum_iff.mpr (Or.inr (Or.inl (by omega)))
  · rw [toLower_eq_of_not_upper (by omega)]
    exact h
  · rw [toLower_eq_of_not_upper (by omega)]
    exact h

theorem toLower_isUpper_false (c : Char) : c.toLower.isUpper = false := by
  by_cases h : 65 ≤ c.toNat ∧ c.toNat ≤ 90
  · have := toLower_toNat_of_upper h.1 h.2
    rw [Bool.eq_false_iff]
    intro hcon
    have := isUpper_iff.mp hcon
    omega
  · rw [toLower_eq_of_not_upper h, Bool.eq_false_iff]
    intro hcon
    exact h (isUpper_iff.mp hcon)

theorem toLower_isWhitespace_false {c : Char} (h : c.isAlphanum = true) :
    c.toLower.isWhitespace = false := by
  rw [Bool.eq_false_iff]
  intro hcon
  have hw := isWhitespace_iff.mp hcon
  by_cases hu : 65 ≤ c.toNat ∧ c.toNat ≤ 90
  · have := toLower_toNat_of_upper hu.1 hu.2
    omega
  · rw [toLower_eq_of_not_upper hu] at hw
    have := isAlphanum_iff.mp h
    omega

theorem toLower_isLower_of_alpha {c : Char} (h : c.isAlphanum = true)
    (ha : c.toLower.isAlpha = true) : c.toLower.isLower = true := by
  rcases isAlphanum_iff.mp h with hu | hl | hd
  · have := toLower_toNat_of_upper hu.1 hu.2
    exact isLower_iff.mpr (by omega)
  · rw [toLower_eq_of_not_upper (by omega)] at ha ⊢
    exact isLower_iff.mpr (by omega)
  · rw [toLower_eq_of_not_upper (by omega)] at ha ⊢
    rcases (Bool.or_eq_true _ _).mp ha with h1 | h1
    · have := isUpper_iff.mp h1
      omega
    · exact h1

theorem toLower_idem (c : Char) : c.toLower.toLower = c.toLower := by
  by_cases h : 65 ≤ c.toNat ∧ c.toNat ≤ 90
  · have := toLower_toNat_of_upper h.1 h.2
    exact toLower_eq_of_not_upper (by omega)
  · rw [toLower_eq_of_not_upper h]
    exact toLower_eq_of_not_upper h

/-! ## Structural facts about `normalize` -/

theorem normalize_nil : normalize [] = [] := rfl

theorem normalize_cons (c : Char) (cs : List Char) :
    normalize (c :: cs) =
      if c.isAlphanum then c.toLower :: normalize cs else normalize cs := by
  simp only [normalize, List.filter_cons]
  by_cases h : c.isAlphanum <;> simp [h]

theorem mem_normalize {text : List Char} {c : Char} (h : c ∈ normalize text) :
    ∃ b ∈ text, b.isAlphanum = true ∧ b.toLower = c := by
  simp only [normalize, List.mem_map, List.mem_filter] at h
  rcases h with ⟨b, ⟨hb, hba⟩, hbc⟩
  exact ⟨b, hb, hba, hbc⟩

theorem normalize_idem (s : List Char) : normalize (normalize s) = normalize s := by
  induction s with
  | nil => rfl
  | cons c cs ih =>
    rw [normalize_cons]
    by_cases h : c.isAlphanum = true
    · rw [if_pos h, normalize_cons, if_pos (toLower_isAlphanum h), toLower_idem, ih]
    · rw [if_neg h, ih]

theorem normalize_append (u v : List Char) :
    normalize (u ++ v) = normalize u ++ normalize v := by
  simp [normalize, List.filter_append]

theorem normalize_reverse (s : List Char) :
    normalize s.reverse = (normalize s).reverse := by
  simp [normalize]

theorem is_palindrome_eq (text : List Char) :
    is_palindrome text = (normalize text == (normalize text).reverse) := rfl

theorem eq_reverse_iff_get (s : List Char) :
    s = s.reverse ↔
      ∀ (i : Nat) (h : i < s.length),
        s.get ⟨i, h⟩ = s.get ⟨s.length - 1 - i, Nat.sub_one_sub_lt_of_lt h⟩ := by
  constructor
  · intro hs i h
    have hj : s.length - 1 - i < s.length := Nat.sub_one_sub_lt_of_lt h
    have hi : s[i]? = s[s.length - 1 - i]? := by
      conv_lhs => rw [hs]
      exact List.getElem?_reverse h
    rw [List.getElem?_eq_getElem h, List.getElem?_eq_getElem hj] at hi
    simpa using hi
  · intro hall
    apply Eq.symm
    apply List.ext_getElem
    · simp
    · intro i h1 h2
      have h1' : i < s.length := by simpa using h1
      rw [List.getElem_reverse]
      exact (hall i h1').symm

/-! ## Claim theorems -/

/-- C1: for every input string `text`, `is_palindrome text` equals
`is_symmetric (normalize text)`, and it returns `true` if and only if the
normalized sequence (lower-cased, non-alphanumeric characters discarded)
equals its own reverse. -/
theorem is_palindrome_eq_is_symmetric_normalize (text : List Char) :
    is_palindrome text = is_symmetric (normalize text) ∧
      (is_palindrome text = true ↔ normalize text = (normalize text).reverse) := by
  refine ⟨rfl, ?_⟩
  simp [is_palindrome]

/-- C2: `is_palindrome_simple` applies no normalization: it returns `true` if
and only if the element at every position `i` equals the element at position
`length - 1 - i`, i.e. iff the text equals its own reverse. -/
theorem is_palindrome_simple_iff_mirror (text : List Char) :
    is_palindrome_simple text = true ↔
      ∀ (i : Nat) (h : i < text.length),
        text.get ⟨i, h⟩ = text.get ⟨text.length - 1 - i, Nat.sub_one_sub_lt_of_lt h⟩ := by
  rw [is_palindrome_simple, beq_iff_eq]
  exact eq_reverse_iff_get text

/-- Witness for C2 at the concrete input `"aba"`. -/
theorem is_palindrome_simple_iff_mirror_witness :
    is_palindrome_simple ['a', 'b', 'a'] = true :=
  (is_palindrome_simple_iff_mirror ['a', 'b', 'a']).mpr (by decide)

/-- C3: `normalize` is the left-to-right single pass that keeps exactly the
alphanumeric characters (tested on the original character), lower-cases each
kept character, and preserves their relative order; concretely
`normalize "Madam, I'm Adam!" = "madamimadam"`. -/
theorem normalize_spec :
    normalize [] = [] ∧
      (∀ (c : Char) (cs : List Char),
        normalize (c :: cs) =
          if c.isAlphanum then c.toLower :: normalize cs else normalize cs) ∧
      normalize "Madam, I'm Adam!".data = "madamimadam".data :=
  ⟨rfl, normalize_cons, by rfl⟩

/-- C4: every character of the sequence produced by the normalization step
inside `is_palindrome` is alphanumeric and not upper-case (lower-case whenever
it is a letter), and the output contains no whitespace. -/
theorem normalize_chars_lower_alnum {text : List Char} {c : Char}
    (h : c ∈ normalize text) :
    c.isAlphanum = true ∧ c.isUpper = false ∧ c.isWhitespace = false ∧
      (c.isAlpha = true → c.isLower = true) := by
  rcases mem_normalize h with ⟨b, _, hba, rfl⟩
  exact ⟨toLower_isAlphanum hba, toLower_isUpper_false b, toLower_isWhitespace_false hba,
    toLower_isLower_of_alpha hba⟩

/-- Witness for C4 at the concrete input `"A!"`, whose normalization is `"a"`. -/
theorem normalize_chars_lower_alnum_witness :
    'a' ∈ normalize ['A', '!'] ∧
      ('a'.isAlphanum = true ∧ 'a'.isUpper = false ∧ 'a'.isWhitespace = false ∧
        ('a'.isAlpha = true → 'a'.isLower = true)) :=
  ⟨by decide, normalize_chars_lower_alnum (show 'a' ∈ normalize ['A', '!'] by decide)⟩

/-- C5: normalization is idempotent, and consequently `is_palindrome s`
equals `is_palindrome (normalize s)` for every string `s`. -/
theorem normalize_idempotent (s : List Char) :
    normalize (normalize s) = normalize s ∧
      is_palindrome s = is_palindrome (normalize s) := by
  refine ⟨normalize_idem s, ?_⟩
  rw [is_palindrome_eq, is_palindrome_eq, normalize_idem]

/-- C6: whenever `is_palindrome_simple` accepts a string, `is_palindrome`
accepts it too; the converse fails, witnessed by `"Aa"`, which
`is_palindrome` accepts and `is_palindrome_simple` rejects. -/
theorem simple_implies_advanced :
    (∀ s : List Char, is_palindrome_simple s = true → is_palindrome s = true) ∧
      is_palindrome ['A', 'a'] = true ∧ is_palindrome_simple ['A', 'a'] = false := by
  refine ⟨?_, by rfl, by rfl⟩
  intro s hs
  rw [is_palindrome_simple, beq_iff_eq] at hs
  rw [is_palindrome_eq, beq_iff_eq]
  conv_lhs => rw [hs]
  rw [normalize_reverse]

/-- Witness for C6: the implication applied at the concrete input `"aba"`. -/
theorem simple_implies_advanced_witness : is_palindrome ['a', 'b', 'a'] = true :=
  simple_implies_advanced.1 ['a', 'b', 'a'] (by rfl)

/-- C7: the symmetry predicate is itself invariant under reversal, both as
the spec's `is_symmetric` and as the implementing `is_palindrome_simple`. -/
theorem symmetric_reverse_invariant (s : List Char) :
    is_symmetric s = is_symmetric s.reverse ∧
      is_palindrome_simple s = is_palindrome_simple s.reverse := by
  have key : (s == s.reverse) = (s.reverse == s.reverse.reverse) := by
    rw [List.reverse_reverse, Bool.eq_iff_iff, beq_iff_eq, beq_iff_eq]
    exact eq_comm
  exact ⟨key, key⟩

/-- C8: the empty sequence and every single-character sequence are symmetric,
for both `is_symmetric` and the implementing `is_palindrome_simple`. -/
theorem symmetric_nil_singleton :
    is_symmetric [] = true ∧ is_palindrome_simple [] = true ∧
      (∀ c : Char, is_symmetric [c] = true ∧ is_palindrome_simple [c] = true) :=
  ⟨rfl, rfl, fun c => ⟨by simp [is_symmetric], by simp [is_palindrome_simple]⟩⟩

/-- C9: `is_palindrome` depends only on the alphanumeric characters of its
input: inserting a non-alphanumeric character anywhere never changes the
verdict. -/
theorem is_palindrome_insert_non_alnum (u v : List Char) (c : Char)
    (h : c.isAlphanum = false) :
    is_palindrome (u ++ [c] ++ v) = is_palindrome (u ++ v) := by
  rw [is_palindrome_eq, is_palindrome_eq]
  have hc : normalize [c] = [] := by simp [normalize, h]
  rw [normalize_append, normalize_append, hc, List.append_nil, ← normalize_append]

/-- Witness for C9: inserting `','` into `"aa"` leaves the verdict unchanged. -/
theorem is_palindrome_insert_non_alnum_witness :
    (','.isAlphanum = false) ∧
      is_palindrome (['a'] ++ [','] ++ ['a']) = is_palindrome (['a'] ++ ['a']) :=
  ⟨by decide, is_palindrome_insert_non_alnum ['a'] ['a'] ',' (by decide)⟩

/-- C10: an input with no alphanumeric character at all normalizes to the
empty sequence, so `is_palindrome` returns `true` on it. -/
theorem is_palindrome_no_alnum (s : List Char)
    (h : ∀ c ∈ s, c.isAlphanum = false) :
    normalize s = [] ∧ is_palindrome s = true := by
  have hn : normalize s = [] := by
    simp only [normalize, List.map_eq_nil_iff, List.filter_eq_nil_iff]
    intro a ha
    simp [h a ha]
  refine ⟨hn, ?_⟩
  rw [is_palindrome_eq, hn]
  rfl

/-- Witness for C10 at the concrete input `", !"`. -/
theorem is_palindrome_no_alnum_witness :
    (∀ c ∈ [',', ' ', '!'], c.isAlphanum = false) ∧
      normalize [',', ' ', '!'] = [] ∧ is_palindrome [',', ' ', '!'] = true :=
  ⟨by decide, is_palindrome_no_alnum [',', ' ', '!'] (by decide)⟩

end PalindromeChecker
